import Mathlib

/-!
Shallow embedding of the version-resolution core of `decrepit.py`
(rust-script-toolbox): the version normalizer (`fmt_ver`, `parse_semver`,
`parse_date`), the source-definition table (`DISTROS`), the generic scraper
(`get_scrape`) with its `inherit` walk, the custom resolvers (`get_fedora`,
`get_freebsd`, `get_openbsd`, `get_nixos` with its etag-keyed disk cache),
the dispatch boundary (`get_dispatch`), and the batch post-processing in
`main` (sorted results and the headline minimum version).

Conventions of the embedding:
* Python strings are Lean `String`s, operated on through their `.data`
  character lists; helper operations (`strip`, decimal formatting, `split`)
  are implemented structurally so that concrete runs reduce by `rfl`/`decide`.
* A Python exception is the `.error` case of `Except PyExc`; a bare
  `except:` corresponds to a `match` on that value.
* External effects (HTTP fetch, XPath evaluation, regex search over fetched
  text, gzip+JSON decoding) are supplied by an explicit environment `Env`;
  a failing network is an `Env` whose fetch functions return `.error`.
* The unbounded `while`/recursion in the source is given explicit fuel;
  `none` (in `Option`-valued results) marks the computation still running
  after the fuel is spent, i.e. divergence of the source loop.
-/

/-- Semantic version: `(major, minor, patch)`, as produced by `parse_semver`. -/
abbrev SemVer : Type := Nat × Nat × Nat

/-- The sentinel unknown version `(0,0,0)` (`parse_semver('0.0.0')`). -/
def sentinelVer : SemVer := (0, 0, 0)

/-- `'(rolling)'` — the `ROLLING` sentinel release argument. -/
def ROLLING : String := "(rolling)"

/-- ASCII decimal digit test (the `\d` class over the strings involved). -/
def isDigitB (c : Char) : Bool := 48 ≤ c.toNat && c.toNat ≤ 57

/-- Decimal digits of `n`, most significant first, by repeated division;
structural fuel makes the definition reduce on concrete inputs.  Empty for
`n = 0` (handled by `natChars`). -/
def natCharsAux : Nat → Nat → List Char
  | 0, _ => []
  | fuel+1, n => if n = 0 then [] else natCharsAux fuel (n / 10) ++ [Char.ofNat (48 + n % 10)]

/-- Decimal rendering of a natural number, as printf `%d` renders a
non-negative integer: no sign, no leading zeros, `"0"` for zero. -/
def natChars (n : Nat) : List Char := if n = 0 then ['0'] else natCharsAux (n + 1) n

/-- Numeric value of a digit string, as `int(s, 10)` computes it on an
all-digit string. -/
def digitsVal (ds : List Char) : Nat := ds.foldl (fun a c => 10 * a + (c.toNat - 48)) 0

/-- `fmt_ver(ver)`: `'%d.%d.%d' % ver`. -/
def fmt_ver (ver : SemVer) : String :=
  String.mk (natChars ver.1 ++ '.' :: (natChars ver.2.1 ++ '.' :: natChars ver.2.2))

/-- `RE_VER.match(s)` for `RE_VER = (?P<ma>\d+)[.](?P<mi>\d+)([.](?P<re>\d+))`:
anchored at the start, three greedy digit groups separated by literal dots,
trailing characters ignored.  (The greedy digit runs never need regex
backtracking here: shortening a maximal digit run can only expose another
digit, never the required `.`.)  Returns the three groups' values. -/
def reVerMatch (s : List Char) : Option SemVer :=
  let d1 := s.takeWhile isDigitB
  match s.dropWhile isDigitB with
  | '.' :: r2 =>
    if d1.isEmpty then none else
    let d2 := r2.takeWhile isDigitB
    match r2.dropWhile isDigitB with
    | '.' :: r4 =>
      if d2.isEmpty then none else
      let d3 := r4.takeWhile isDigitB
      if d3.isEmpty then none else some (digitsVal d1, digitsVal d2, digitsVal d3)
    | _ => none
  | _ => none

/-- `parse_semver(ver)`: `RE_VER.match(ver)` then `int` of the `ma`/`mi`/`re`
groups.  `none` models the `AttributeError` raised from `m.group` when the
match fails (`m is None`). -/
def parse_semver (ver : String) : Option SemVer := reVerMatch ver.data

/-- `date.split('-')`: split on every `'-'`, keeping empty pieces. -/
def splitDash : List Char → List (List Char)
  | [] => [[]]
  | c :: rest =>
    if c = '-' then [] :: splitDash rest
    else
      match splitDash rest with
      | p :: ps => (c :: p) :: ps
      | [] => [[c]]

/-- `int(p, 10)` on the strings that occur here: the value of a non-empty
all-digit string, `none` (`ValueError`) otherwise.  (Python's `int` also
accepts a sign, surrounding whitespace and digit-group underscores; the
date components this program handles are plain digit runs.) -/
def pyIntChars (p : List Char) : Option Nat :=
  if p.isEmpty then none
  else if p.all isDigitB then some (digitsVal p) else none

/-- `[int(p, 10) for p in ps]`: left-to-right, failing at the first
non-numeric component. -/
def mapIntParts : List (List Char) → Option (List Nat)
  | [] => some []
  | p :: ps =>
    match pyIntChars p, mapIntParts ps with
    | some n, some ns => some (n :: ns)
    | _, _ => none

/-- Length of month `m` in year `y` (Gregorian), as `datetime.date` checks it. -/
def daysInMonth (y m : Nat) : Nat :=
  if m = 2 then (if y % 4 = 0 ∧ (y % 100 ≠ 0 ∨ y % 400 = 0) then 29 else 28)
  else if m = 4 ∨ m = 6 ∨ m = 9 ∨ m = 11 then 30 else 31

/-- `datetime.date(y, m, d)`: validates year 1..9999, month 1..12 and the
day against the month length; `none` models the `ValueError` it raises. -/
def datetimeDate (y m d : Nat) : Option (Nat × Nat × Nat) :=
  if 1 ≤ y ∧ y ≤ 9999 ∧ 1 ≤ m ∧ m ≤ 12 ∧ 1 ≤ d ∧ d ≤ daysInMonth y m
  then some (y, m, d) else none

/-- `'%0Nd'`-style zero padding to width `w`. -/
def padZeros (w : Nat) (ds : List Char) : List Char := List.replicate (w - ds.length) '0' ++ ds

/-- `parse_date(date)` for a string argument:
`datetime.date(*[int(p, 10) for p in chain(date.split('-')[:3], ['01']*2)][:3])`
rendered back as `'%04d-%02d-%02d'`.  `none` models the exception
(`ValueError`) escaping `parse_date`.  (The `date is None` branch reads the
wall clock and is outside this embedding.) -/
def parse_date (date : String) : Option String :=
  let ps := (splitDash date.data).take 3 ++ [['0', '1'], ['0', '1']]
  match mapIntParts ps with
  | none => none
  | some ns =>
    match ns.take 3 with
    | [y, m, d] =>
      match datetimeDate y m d with
      | none => none
      | some (y2, m2, d2) =>
        some (String.mk (padZeros 4 (natChars y2) ++ '-' ::
          (padZeros 2 (natChars m2) ++ '-' :: padZeros 2 (natChars d2))))
    | _ => none

/-- Python `str` `<` (lexicographic by code point), on character lists. -/
def strLtB : List Char → List Char → Bool
  | [], [] => false
  | [], _ :: _ => true
  | _ :: _, [] => false
  | a :: as, b :: bs => a.toNat < b.toNat || (a == b && strLtB as bs)

/-- Python tuple `<` on two `(major, minor, patch)` triples. -/
def verLtB (a b : SemVer) : Bool :=
  a.1 < b.1 || (a.1 == b.1 && (a.2.1 < b.2.1 || (a.2.1 == b.2.1 && a.2.2 < b.2.2)))

/-- Python tuple `<` on the sort keys `(dv[1], dv[0])` = `(version, name)`
used at line 243 of the source. -/
def keyLtB (x y : String × SemVer) : Bool :=
  verLtB x.2 y.2 || (x.2 == y.2 && strLtB x.1.data y.1.data)

/-- `x` may be placed before `y` by the ascending stable sort: `key y < key x`
does not hold. -/
def keyLe (x y : String × SemVer) : Prop := keyLtB y x = false

instance : DecidableRel keyLe :=
  fun x y => inferInstanceAs (Decidable (keyLtB y x = false))

/-- `sorted(pkg_vers, key = lambda dv: (dv[1], dv[0]))` (line 240-243): a
stable ascending sort by the `(version, source_name)` key. -/
def sortResults (l : List (String × SemVer)) : List (String × SemVer) :=
  List.insertionSort keyLe l

/-- Lines 240–244: the sorted batch, each version rendered with `fmt_ver`. -/
def pkgVersFmt (l : List (String × SemVer)) : List (String × String) :=
  (sortResults l).map (fun dv => (dv.1, fmt_ver dv.2))

/-- Lines 271–272 (default, non-`--all` mode):
`vs = [v for (_, v) in pkg_vers if v != '0.0.0'] + ['unknown']; print(vs[0])`. -/
def headline (l : List (String × SemVer)) : String :=
  match ((pkgVersFmt l).filter (fun dv => dv.2 != "0.0.0")).map Prod.snd ++ ["unknown"] with
  | v :: _ => v
  | [] => ""

/-- The minimum-selection example from the specification. -/
def exC5 : List (String × SemVer) := [("x", (0, 0, 0)), ("y", (1, 10, 0)), ("z", (1, 2, 3))]

/-- The Python exception that escapes a modelled operation. -/
inductive PyExc where
  | keyError (key : String)
  | assertionError (msg : String)
  | attributeError (msg : String)
  | typeError (msg : String)
  | valueError (msg : String)
  | indexError (msg : String)
  | exception (msg : String)
  | recursionError
  deriving DecidableEq, Repr

/-- A scrape-rule dictionary from the `DISTROS` table: the `url`, `xpath`,
`re` and `inherit` keys (each possibly absent).  The `re` key is spelled
`regex` here. -/
structure Rule where
  url : Option String := none
  xpath : Option String := none
  regex : Option String := none
  inherit : Option String := none
  deriving DecidableEq, Repr

/-- Which bespoke resolver a `lambda source: get_*(source)` table entry calls. -/
inductive CustomTag where
  | fedora
  | freebsd
  | nixos
  | openbsd
  deriving DecidableEq, Repr

/-- A `DISTROS` table value: a scrape-rule dict, an alias string naming
another entry, or a custom resolver function. -/
inductive Defn where
  | scrape (rule : Rule)
  | alias (target : String)
  | custom (tag : CustomTag)
  deriving DecidableEq, Repr

def archRule : Rule :=
  { url := some "https://www.archlinux.org/packages/community/x86_64/rust/",
    xpath := some "//h2/text()",
    regex := some "rust \\d+:(?P<version>\\d+[.]\\d+[.]\\d+)" }

def debianRule : Rule :=
  { url := some "https://packages.debian.org/{release}/rustc",
    xpath := some "//h1/text()",
    regex := some "rustc [(](?P<version>\\d+[.]\\d+[.]\\d+)" }

def opensuseRule : Rule :=
  { url := some "https://build.opensuse.org/package/view_file/openSUSE:Leap:{release}/rust/rust.spec?expand=1",
    xpath := some "//pre/text()",
    regex := some "Version:\\s+(?P<version>\\d+[.]\\d+[.]\\d+)" }

def ubuntuRule : Rule :=
  { url := some "http://packages.ubuntu.com/{release}/rustc",
    inherit := some "debian" }

/-- The `DISTROS` source-definition table, in source order. -/
def DISTROS : List (String × Defn) := [
  ("arch", .scrape archRule),
  ("debian", .scrape debianRule),
  ("debian-testing", .alias "debian"),
  ("debian-unstable", .alias "debian"),
  ("fedora", .custom .fedora),
  ("fedora-latest", .alias "fedora"),
  ("freebsd", .custom .freebsd),
  ("freebsd-latest", .alias "freebsd"),
  ("nixos", .custom .nixos),
  ("openbsd", .custom .openbsd),
  ("openbsd-latest", .alias "openbsd"),
  ("opensuse", .scrape opensuseRule),
  ("ubuntu", .scrape ubuntuRule),
  ("ubuntu-latest", .alias "ubuntu")]

/-- `DISTROS[name]` as an `Option` (the `KeyError` is raised at the use
sites, which differ in whether the lookup sits inside a `try`). -/
def lookupDefn (table : List (String × Defn)) (name : String) : Option Defn :=
  (table.find? (fun p => p.1 == name)).map Prod.snd

/-- `str.format(**args)` over a character list: `\x7b\x7b`/`\x7d\x7d` are
literal-brace escapes, `\x7bname\x7d` substitutes `args[name]`
(`KeyError` when absent), an unpaired brace is a `ValueError`.  Structural
fuel; each step consumes at least one character, so `length + 1` is enough. -/
def pyFormatAux (args : List (String × String)) : Nat → List Char → Except PyExc (List Char)
  | 0, _ => .error (.exception "format: out of fuel")
  | _, [] => .ok []
  | fuel+1, c :: rest =>
    if c = '{' then
      match rest with
      | d :: rest2 =>
        if d = '{' then do
          let t ← pyFormatAux args fuel rest2
          .ok ('{' :: t)
        else
          let fname := rest.takeWhile (fun x => x != '}')
          match rest.dropWhile (fun x => x != '}') with
          | [] => .error (.valueError "Single brace encountered in format string")
          | _ :: rest3 =>
            match args.find? (fun kv => kv.1.data == fname) with
            | none => .error (.keyError (String.mk fname))
            | some kv => do
              let t ← pyFormatAux args fuel rest3
              .ok (kv.2.data ++ t)
      | [] => .error (.valueError "Single brace encountered in format string")
    else if c = '}' then
      match rest with
      | d :: rest2 =>
        if d = '}' then do
          let t ← pyFormatAux args fuel rest2
          .ok ('}' :: t)
        else .error (.valueError "Single brace encountered in format string")
      | [] => .error (.valueError "Single brace encountered in format string")
    else do
      let t ← pyFormatAux args fuel rest
      .ok (c :: t)

def pyFormat (tmpl : String) (args : List (String × String)) : Except PyExc String := do
  let t ← pyFormatAux args (tmpl.data.length + 1) tmpl.data
  .ok (String.mk t)

/-- One `inherit` merge step:
`new_defin = DISTROS[inherit].copy(); new_defin.update(non-inherit items of defin)`.
The child's present fields override the parent's; the resulting `inherit`
key is the parent's (the child's is excluded from the update). -/
def mergeRule (defin parent : Rule) : Rule :=
  { url := defin.url <|> parent.url,
    xpath := defin.xpath <|> parent.xpath,
    regex := defin.regex <|> parent.regex,
    inherit := parent.inherit }

/-- The `while 'inherit' in defin:` walk of `get_scrape`.  The source loop
is uncapped; `fuel` only bounds this model, and `none` means the loop is
still running after `fuel` merges — with fuel at least the table size that
can only happen when the inherit links cycle, i.e. when the source loop
never terminates.  A target absent from the table is the lookup `KeyError`;
a target that is an alias string or a lambda has no `.copy()`
(`AttributeError`). -/
def resolveInherit (table : List (String × Defn)) : Nat → Rule → Option (Except PyExc Rule)
  | fuel+1, defin =>
    match defin.inherit with
    | none => some (.ok defin)
    | some tgt =>
      match lookupDefn table tgt with
      | none => some (.error (.keyError tgt))
      | some (.scrape parent) => resolveInherit table fuel (mergeRule defin parent)
      | some _ => some (.error (.attributeError "object has no attribute copy"))
  | 0, defin =>
    match defin.inherit with
    | none => some (.ok defin)
    | some _ => none

/-- `source` normalization of `get_scrape`: `None` becomes an empty mapping,
a bare string becomes a single-key mapping for the release placeholder.
(The release argument domain here is `Option String`; the defensive raise
for other Python types is unreachable.) -/
def scrapeArgs : Option String → List (String × String)
  | none => []
  | some s => [("release", s)]

/-- Lines 472–476: `version = m.group('version') or '0.0.0'` when the regex
matched (`or` also replaces an empty or non-participating group), and
`version = '0.0.0'` when it did not. -/
def scrapeVersionOf : Option (Option String) → String
  | some (some gs) => if gs = "" then "0.0.0" else gs
  | some none => "0.0.0"
  | none => "0.0.0"

/-- `return parse_semver(version)`: an unparsable version string raises
(`RE_VER.match` returns `None` and `.group` fails). -/
def scrapeFinish (version : String) : Except PyExc SemVer :=
  match parse_semver version with
  | some v => .ok v
  | none => .error (.attributeError "NoneType object has no attribute group")

/-- A row of the Fedora JSON response: the fields `get_fedora` reads.
`none` models a missing key (`r.get('release', None)` / `KeyError`). -/
structure FedoraRow where
  release : Option String
  stable_version : Option String
  deriving DecidableEq, Repr

/-- The NixOS HTTP response: the `etag` header (possibly absent) and the
body that `req.read()` would download. -/
structure NixosRemote where
  etag : Option String
  body : List Nat
  deriving DecidableEq, Repr

/-- The external world of the resolvers.  Every network, XPath, regex and
decoding operation is a field, so a theorem quantifying over `Env` covers
every remote behaviour including failures. -/
structure Env where
  /-- `urlopen(url).read()` (optionally through `lxml.html.fromstring`):
  the document at a URL, or the exception the fetch raises. -/
  fetch : String → Except PyExc String
  /-- `page.xpath(xp)[0]` followed by `''.join(str(res))`: the first XPath
  result on a fetched page; an empty result list is an `IndexError`. -/
  xpathFirst : String → String → Except PyExc String
  /-- `re.compile(pat).search(text)`: `none` when the regex does not match,
  `some g` when it matches with `g` the relevant captured group (`none`
  inside: the group did not participate in the match). -/
  search : String → String → Option (Option String)
  /-- Fedora: `json.loads(urlopen(URL).read().decode('utf-8')).get('rows', [])`
  for the fixed query URL. -/
  fedoraRows : Except PyExc (List FedoraRow)
  /-- NixOS: `urlopen(URL)` for the fixed packages.json.gz URL — response
  headers plus the body available to `read()`. -/
  nixosFetch : Except PyExc NixosRemote
  /-- NixOS: `json.loads(gzip.decompress(bs).decode('utf-8'))['packages']['rustc']['name']`. -/
  nixosDecodeName : List Nat → Except PyExc String

/-- `get_scrape(distro, defin, source)`: generic HTML scraping.  The outer
`Option` marks divergence of the uncapped inherit walk (`none`); the inner
`Except` is the normal return or the exception the function raises. -/
def get_scrape (env : Env) (table : List (String × Defn)) (wfuel : Nat)
    (defin : Rule) (source : Option String) : Option (Except PyExc SemVer) :=
  let args := scrapeArgs source
  match resolveInherit table wfuel defin with
  | none => none
  | some (.error e) => some (.error e)
  | some (.ok d) => some (do
      let url ← match d.url with
        | none => (.error (.keyError "url") : Except PyExc String)
        | some u => pyFormat u args
      let xpath ← match d.xpath with
        | none => (.error (.keyError "xpath") : Except PyExc String)
        | some x => pyFormat x args
      let pat ← match d.regex with
        | none => (.error (.keyError "re") : Except PyExc String)
        | some p => .ok p
      let page ← env.fetch url
      let text ← env.xpathFirst page xpath
      scrapeFinish (scrapeVersionOf (env.search pat text)))

def isPrefB : List Char → List Char → Bool
  | [], _ => true
  | _ :: _, [] => false
  | a :: as, b :: bs => a == b && isPrefB as bs

/-- Python `needle in hay` on strings (substring containment). -/
def containsB (hay needle : List Char) : Bool :=
  match hay with
  | [] => needle.isEmpty
  | c :: hs => isPrefB needle (c :: hs) || containsB hs needle

/-- `str(x)` of an optional string: `None` renders as `"None"` (as
`str.format` interpolates it). -/
def pyStrOpt : Option String → String
  | none => "None"
  | some s => s

/-- `source in r.get('release', None)`: `TypeError` when either side is
`None`, substring containment otherwise. -/
def fedoraRowTest (source : Option String) (r : FedoraRow) : Except PyExc Bool :=
  match r.release with
  | none => .error (.typeError "argument of type NoneType is not iterable")
  | some rel =>
    match source with
    | none => .error (.typeError "in <string> requires string as left operand, not NoneType")
    | some s => .ok (containsB rel.data s.data)

/-- The list comprehension filter, evaluating the test left to right and
propagating the first exception. -/
def filterExc (p : FedoraRow → Except PyExc Bool) : List FedoraRow → Except PyExc (List FedoraRow)
  | [] => .ok []
  | a :: as => do
    let b ← p a
    let rest ← filterExc p as
    .ok (if b then a :: rest else rest)

/-- `re.search(pat, text).group(k)` fed to `parse_semver`: no match means
`.group` on `None` (`AttributeError`); a non-participating group means
`parse_semver(None)` (`TypeError`); an unparsable group raises inside
`parse_semver`. -/
def searchGroupParse : Option (Option String) → Except PyExc SemVer
  | none => .error (.attributeError "NoneType object has no attribute group")
  | some none => .error (.typeError "expected string or bytes-like object")
  | some (some g) =>
    match parse_semver g with
    | some v => .ok v
    | none => .error (.attributeError "NoneType object has no attribute group")

/-- `get_fedora(source)`: query the JSON API, filter rows by the release
substring, take the first match, extract the version from its
`stable_version` markup. -/
def get_fedora (env : Env) (source : Option String) : Except PyExc SemVer := do
  let rows ← env.fedoraRows
  let filtered ← filterExc (fedoraRowTest source) rows
  match filtered with
  | [] => .error (.exception ("could not find package information for Fedora " ++ pyStrOpt source))
  | release :: _ =>
    let ver ← match release.stable_version with
      | none => (.error (.keyError "stable_version") : Except PyExc String)
      | some v => .ok v
    searchGroupParse (env.search ">(\\d+[.]\\d+[.]\\d+)(-[^<]+)?<" ver)

/-- `get_freebsd(source)`: scrape the svnweb listing for the Makefile
revision, then fetch that revision and read `PORTVERSION`. -/
def get_freebsd (env : Env) (source : Option String) : Except PyExc SemVer := do
  let pkg_url := "https://svnweb.freebsd.org/ports/branches/" ++ pyStrOpt source ++ "/lang/rust"
  let pkg_page ← env.fetch pkg_url
  let rev ← env.xpathFirst pkg_page "//tr[td[1]/a/text()='\nMakefile']/td[2]//strong/text()"
  let makefile_url := "https://svnweb.freebsd.org/ports/branches/" ++ pyStrOpt source
    ++ "/lang/rust/Makefile?revision=" ++ rev ++ "&view=co"
  let makefile_page ← env.fetch makefile_url
  searchGroupParse (env.search "(?m)^PORTVERSION[?]\\s*=\\s*(\\d+[.]\\d+[.]\\d+)" makefile_page)

/-- `get_openbsd(source)`: scrape the cvsweb listing for the Makefile
revision under the release tag, then fetch that revision and read `V`.
`source.replace('.', '_')` on `None` raises before any fetch. -/
def get_openbsd (env : Env) (source : Option String) : Except PyExc SemVer := do
  let src ← match source with
    | none => (.error (.attributeError "NoneType object has no attribute replace") : Except PyExc String)
    | some s => .ok s
  let tag := "OPENBSD_" ++ String.mk (src.data.map (fun c => if c = '.' then '_' else c))
  let pkg_url := "http://cvsweb.openbsd.org/cgi-bin/cvsweb/ports/lang/rust/?only_with_tag=" ++ tag
  let pkg_page ← env.fetch pkg_url
  let rev ← env.xpathFirst pkg_page "//tr[td[1]/a[3]/text()='Makefile']/td[2]/a/b/text()"
  let makefile_url := "http://cvsweb.openbsd.org/cgi-bin/cvsweb/~checkout~/ports/lang/rust/Makefile?rev="
    ++ rev ++ "&only_with_tag=" ++ tag
  let makefile_page ← env.fetch makefile_url
  searchGroupParse (env.search "(?m)^V\\s*=\\s*(\\d+[.]\\d+[.]\\d+)" makefile_page)

/-- Python whitespace for `str.strip()`. -/
def isPySpace (c : Char) : Bool :=
  c == ' ' || c == '\t' || c == '\n' || c == '\r' || c == '\x0b' || c == '\x0c'

/-- `str.strip()`. -/
def pyStrip (s : String) : String :=
  String.mk (((s.data.dropWhile isPySpace).reverse.dropWhile isPySpace).reverse)

/-- The two cache files of `get_nixos` in the temp directory: the etag text
file and the raw gzipped payload.  `none` models a file that is missing or
unreadable (the reads sit in `try ... except: pass`). -/
structure NixosCacheState where
  etagFile : Option String
  bodyFile : Option (List Nat)
  deriving DecidableEq, Repr

/-- What one `get_nixos` call did: its return value or exception, whether
`urlopen` was attempted, whether `req.read()` downloaded the body, and the
cache files afterwards. -/
structure NixosOutcome where
  result : Except PyExc SemVer
  fetched : Bool
  readBody : Bool
  finalState : NixosCacheState
  deriving Repr

/-- The tail of `get_nixos`: decompress/parse the payload and extract the
version from the `rustc` package name. -/
def nixosParse (env : Env) (bs : List Nat) : Except PyExc SemVer := do
  let name ← env.nixosDecodeName bs
  searchGroupParse (env.search "rustc-(\\d+[.]\\d+[.]\\d+)" name)

/-- `get_nixos(source)`: assert the rolling-only precondition, then do a
conditional fetch — reuse the cached payload when the stored etag (stripped)
equals the response etag and the cached payload file is readable, otherwise
download the body and persist both files.  When the response carries no
etag and the cache is not used, `open(etag_path, 'wb')` truncates the etag
file before `cur_etag.encode` raises `AttributeError`.
(`tempfile.gettempdir()` always yields a directory, so the `tempdir is not
None` guards are taken as true.) -/
def get_nixos (env : Env) (st : NixosCacheState) (source : Option String) : NixosOutcome :=
  if source ≠ some ROLLING then
    { result := .error (.assertionError "NixOS is a rolling-only release"),
      fetched := false, readBody := false, finalState := st }
  else
    let last_etag : Option String := st.etagFile.map pyStrip
    match env.nixosFetch with
    | .error e => { result := .error e, fetched := true, readBody := false, finalState := st }
    | .ok req =>
      let cur_etag := req.etag
      let json_bs_gz : Option (List Nat) :=
        if cur_etag = last_etag then st.bodyFile else none
      match json_bs_gz with
      | some bs =>
        { result := nixosParse env bs, fetched := true, readBody := false, finalState := st }
      | none =>
        match cur_etag with
        | none =>
          { result := .error (.attributeError "NoneType object has no attribute encode"),
            fetched := true, readBody := true,
            finalState := { etagFile := some "", bodyFile := st.bodyFile } }
        | some t =>
          { result := nixosParse env req.body, fetched := true, readBody := true,
            finalState := { etagFile := some t, bodyFile := some req.body } }

/-- Calling the lambda stored in the table for a custom entry. -/
def runCustom (env : Env) (st : NixosCacheState) (tag : CustomTag) (arg : Option String) :
    Except PyExc SemVer :=
  match tag with
  | .fedora => get_fedora env arg
  | .freebsd => get_freebsd env arg
  | .openbsd => get_openbsd env arg
  | .nixos => (get_nixos env st arg).result

/-- `get_dispatch(distro, arg)`.  The table lookup `DISTROS[distro]` sits
*before* the `try:`, so its `KeyError` is returned as an error (it
propagates); everything inside the `try:` — custom resolver, alias
recursion, generic scrape — is caught by the bare `except:` and replaced
with `parse_semver('0.0.0') = (0,0,0)`.  `fuel` bounds the alias recursion
(exhaustion is Python's `RecursionError`, raised at the call site inside
the caller's `try:`); the generic scraper gets `table.length` merge fuel,
which is exact for every terminating inherit walk, and its `none` —
divergence of the source's uncapped loop — passes through untouched. -/
def get_dispatch (env : Env) (st : NixosCacheState) (table : List (String × Defn)) :
    Nat → String → Option String → Option (Except PyExc SemVer)
  | 0, _, _ => some (.error .recursionError)
  | fuel+1, distro, arg =>
    match lookupDefn table distro with
    | none => some (.error (.keyError distro))
    | some defin =>
      let body : Option (Except PyExc SemVer) :=
        match defin with
        | .custom tag => some (runCustom env st tag arg)
        | .alias target => get_dispatch env st table fuel target arg
        | .scrape rule => get_scrape env table table.length rule arg
      match body with
      | none => none
      | some (.ok v) => some (.ok v)
      | some (.error _) => some (.ok (0, 0, 0))

/-- An empty cache: neither file exists. -/
def st0 : NixosCacheState := { etagFile := none, bodyFile := none }

/-- An environment in which every network operation fails (the simulated
always-failing fetch). -/
def envAllFail : Env :=
  { fetch := fun _ => .error (.exception "urlopen failed"),
    xpathFirst := fun _ _ => .error (.exception "urlopen failed"),
    search := fun _ _ => none,
    fedoraRows := .error (.exception "urlopen failed"),
    nixosFetch := .error (.exception "urlopen failed"),
    nixosDecodeName := fun _ => .error (.exception "urlopen failed") }

/-- An environment in which the NixOS path succeeds end to end: the fetch
returns an etag and a payload that decodes to the `rustc-1.16.0` package
name, and the version regex extracts `1.16.0` from exactly that name. -/
def envOk : Env :=
  { fetch := fun _ => .ok "<html></html>",
    xpathFirst := fun _ _ => .ok "rust 1:1.16.0-1",
    search := fun _ text => if text = "rustc-1.16.0" then some (some "1.16.0") else none,
    fedoraRows := .ok [],
    nixosFetch := .ok { etag := some "abc", body := [31, 139] },
    nixosDecodeName := fun _ => .ok "rustc-1.16.0" }

/-- An environment whose fetch and XPath succeed but whose version regex
never matches the extracted text. -/
def envNoMatch : Env :=
  { fetch := fun _ => .ok "<html><h2>some heading</h2></html>",
    xpathFirst := fun _ _ => .ok "some heading without a version",
    search := fun _ _ => none,
    fedoraRows := .ok [],
    nixosFetch := .ok { etag := some "abc", body := [31, 139] },
    nixosDecodeName := fun _ => .ok "not the expected name" }

/-- A two-entry table whose inherit links form a cycle. -/
def cycARule : Rule := { url := some "http://a.example/", inherit := some "b" }

def cycBRule : Rule := { xpath := some "//x/text()", inherit := some "a" }

def cycTable : List (String × Defn) := [("a", .scrape cycARule), ("b", .scrape cycBRule)]

/-- The cache state after a run that stored token `"abc"` and payload `[1, 2]`. -/
def stWarm : NixosCacheState := { etagFile := some "abc", bodyFile := some [1, 2] }

/-- A cache state with a stored token but an unreadable payload file. -/
def stTorn : NixosCacheState := { etagFile := some "abc", bodyFile := none }

/-- A cache state whose stored token differs from the remote's. -/
def stStale : NixosCacheState := { etagFile := some "old", bodyFile := some [9] }

theorem natCharsAux_val (fuel : Nat) :
    ∀ n, n < 10 ^ fuel → digitsVal (natCharsAux fuel n) = n := by
  induction fuel with
  | zero => intro n h; interval_cases n; simp [natCharsAux, digitsVal]
  | succ fuel ih =>
    intro n h
    by_cases h0 : n = 0
    · simp [natCharsAux, h0, digitsVal]
    · rw [natCharsAux]
      simp only [h0, if_false]
      rw [show digitsVal (natCharsAux fuel (n / 10) ++ [Char.ofNat (48 + n % 10)])
            = 10 * digitsVal (natCharsAux fuel (n / 10)) + ((Char.ofNat (48 + n % 10)).toNat - 48)
          from by simp [digitsVal, List.foldl_append]]
      rw [ih (n / 10) (by
        have hp : 10 ^ (fuel + 1) = 10 ^ fuel * 10 := by ring
        omega)]
      have h10 : n % 10 < 10 := Nat.mod_lt _ (by norm_num)
      have hch : (Char.ofNat (48 + n % 10)).toNat = 48 + n % 10 := by
        interval_cases hh : (n % 10) <;> decide
      omega

theorem natCharsAux_digits (fuel : Nat) :
    ∀ n, ∀ c ∈ natCharsAux fuel n, isDigitB c = true := by
  induction fuel with
  | zero => intro n c hc; simp [natCharsAux] at hc
  | succ fuel ih =>
    intro n c hc
    rw [natCharsAux] at hc
    by_cases h0 : n = 0
    · simp [h0] at hc
    · simp only [h0, if_false, List.mem_append, List.mem_singleton] at hc
      rcases hc with hc | hc
      · exact ih _ _ hc
      · subst hc
        have h10 : n % 10 < 10 := Nat.mod_lt _ (by norm_num)
        interval_cases hh : (n % 10) <;> decide

theorem digitsVal_natChars (n : Nat) : digitsVal (natChars n) = n := by
  by_cases h0 : n = 0
  · simp [natChars, h0, digitsVal]
  · rw [natChars]
    simp only [h0, if_false]
    exact natCharsAux_val (n + 1) n
      (lt_of_lt_of_le (Nat.lt_pow_self (by norm_num) n)
        (Nat.pow_le_pow_right (by norm_num) (Nat.le_succ n)))

theorem natChars_digits (n : Nat) : ∀ c ∈ natChars n, isDigitB c = true := by
  by_cases h0 : n = 0
  · intro c hc; simp [natChars, h0] at hc; subst hc; decide
  · rw [natChars]; simp only [h0, if_false]
    exact natCharsAux_digits (n + 1) n

theorem natChars_ne_nil (n : Nat) : natChars n ≠ [] := by
  by_cases h0 : n = 0
  · simp [natChars, h0]
  · rw [natChars]
    simp only [h0, if_false]
    rw [natCharsAux]
    simp [h0]

theorem takeWhile_all_append {p : Char → Bool} {xs : List Char} (h : ∀ c ∈ xs, p c = true)
    {y : Char} (hy : p y = false) (rest : List Char) :
    (xs ++ y :: rest).takeWhile p = xs ∧ (xs ++ y :: rest).dropWhile p = y :: rest := by
  induction xs with
  | nil => simp [List.takeWhile, List.dropWhile, hy]
  | cons a xs ih =>
    have ha : p a = true := h a (by simp)
    have := ih (fun c hc => h c (by simp [hc]))
    simp [List.takeWhile, List.dropWhile, ha, this.1, this.2]

theorem takeWhile_all {p : Char → Bool} {xs : List Char} (h : ∀ c ∈ xs, p c = true) :
    xs.takeWhile p = xs := by
  induction xs with
  | nil => rfl
  | cons a xs ih =>
    have ha : p a = true := h a (by simp)
    simp [List.takeWhile, ha, ih (fun c hc => h c (by simp [hc]))]

/-- `parse_semver(fmt_ver(v)) = v`: the round trip through the canonical
string form recovers the tuple. -/
theorem parse_semver_fmt_ver (v : SemVer) : parse_semver (fmt_ver v) = some v := by
  obtain ⟨a, b, c⟩ := v
  have hdot : isDigitB '.' = false := by decide
  have h1 := takeWhile_all_append (natChars_digits a) hdot (natChars b ++ '.' :: natChars c)
  have h2 := takeWhile_all_append (natChars_digits b) hdot (natChars c)
  have h3 := takeWhile_all (natChars_digits c)
  show reVerMatch (natChars a ++ '.' :: (natChars b ++ '.' :: natChars c)) = some (a, b, c)
  rw [reVerMatch]
  simp only [h1.1, h1.2, h2.1, h2.2, h3]
  simp [List.isEmpty_iff, natChars_ne_nil, digitsVal_natChars]

/-- C8: for every valid SemVer value — a 3-tuple of non-negative integers —
parsing the canonical formatted string gives back the same tuple:
`parse_semver (fmt_ver v) = some v`. -/
theorem c8_parse_semver_fmt_ver_roundtrip : ∀ v : SemVer, parse_semver (fmt_ver v) = some v :=
  parse_semver_fmt_ver

theorem splitDash_all_digits {xs : List Char} (h : ∀ c ∈ xs, isDigitB c = true) :
    splitDash xs = [xs] := by
  induction xs with
  | nil => rfl
  | cons a xs ih =>
    have ha : a ≠ '-' := by
      intro hc; subst hc; exact absurd (h '-' (by simp)) (by decide)
    rw [splitDash]
    simp only [ha, if_false]
    rw [ih (fun c hc => h c (by simp [hc]))]

theorem splitDash_append_dash {xs : List Char} (h : ∀ c ∈ xs, isDigitB c = true)
    (ys : List Char) : splitDash (xs ++ '-' :: ys) = xs :: splitDash ys := by
  induction xs with
  | nil => simp [splitDash]
  | cons a xs ih =>
    have ha : a ≠ '-' := by
      intro hc; subst hc; exact absurd (h '-' (by simp)) (by decide)
    rw [List.cons_append, splitDash]
    simp only [ha, if_false]
    rw [ih (fun c hc => h c (by simp [hc]))]

theorem pyIntChars_digits {xs : List Char} (hne : xs ≠ [])
    (h : ∀ c ∈ xs, isDigitB c = true) : pyIntChars xs = some (digitsVal xs) := by
  rw [pyIntChars, if_neg (by simp [List.isEmpty_iff, hne]),
    if_pos (by rw [List.all_eq_true]; exact h)]

theorem daysInMonth_pos (y m : Nat) : 1 ≤ daysInMonth y m := by
  rw [daysInMonth]
  split <;> split <;> omega

theorem natCharsAux_length (fuel : Nat) :
    ∀ n k, n < 10 ^ k → (natCharsAux fuel n).length ≤ k := by
  induction fuel with
  | zero => intro n k _; simp [natCharsAux]
  | succ fuel ih =>
    intro n k h
    by_cases h0 : n = 0
    · simp [natCharsAux, h0]
    · rw [natCharsAux]
      simp only [h0, if_false, List.length_append, List.length_singleton]
      have hk : 1 ≤ k := by
        rcases Nat.eq_zero_or_pos k with hk0 | hk0
        · subst hk0; simp at h; omega
        · exact hk0
      have hp : 10 ^ k = 10 ^ (k - 1) * 10 := by
        conv_lhs => rw [show k = (k - 1) + 1 from by omega]
        ring
      have := ih (n / 10) (k - 1) (by omega)
      omega

theorem natChars_length {n k : Nat} (h : n < 10 ^ k) (hk : 1 ≤ k) :
    (natChars n).length ≤ k := by
  by_cases h0 : n = 0
  · simpa [natChars, h0] using hk
  · rw [natChars]
    simp only [h0, if_false]
    exact natCharsAux_length (n + 1) n k h

theorem padZeros_length {w : Nat} {ds : List Char} (h : ds.length ≤ w) :
    (padZeros w ds).length = w := by
  simp [padZeros]
  omega

/-- C10 (amended): `parse_date` pads partial dates — for a one-component
numeric input the month and day default to `01`, for a two-component input
the day defaults to `01` — and renders `%04d-%02d-%02d`, provided the
components form a valid date (year 1..9999, month 1..12); out-of-range
components make `datetime.date` raise instead (see the counterexample).
The padded fields have widths 4 and 2, and the claim's two examples hold. -/
theorem c10_parse_date_pads_partial_dates :
    (∀ c1 : List Char, c1 ≠ [] → (∀ c ∈ c1, isDigitB c = true) →
      1 ≤ digitsVal c1 → digitsVal c1 ≤ 9999 →
      parse_date (String.mk c1) =
        some (String.mk (padZeros 4 (natChars (digitsVal c1)) ++ '-' ::
          ('0' :: '1' :: '-' :: ['0', '1']))) ∧
      (padZeros 4 (natChars (digitsVal c1))).length = 4) ∧
    (∀ c1 c2 : List Char, c1 ≠ [] → (∀ c ∈ c1, isDigitB c = true) →
      c2 ≠ [] → (∀ c ∈ c2, isDigitB c = true) →
      1 ≤ digitsVal c1 → digitsVal c1 ≤ 9999 →
      1 ≤ digitsVal c2 → digitsVal c2 ≤ 12 →
      parse_date (String.mk (c1 ++ '-' :: c2)) =
        some (String.mk (padZeros 4 (natChars (digitsVal c1)) ++ '-' ::
          (padZeros 2 (natChars (digitsVal c2)) ++ '-' :: ['0', '1']))) ∧
      (padZeros 2 (natChars (digitsVal c2))).length = 2) ∧
    parse_date "2017" = some "2017-01-01" ∧
    parse_date "2017-4-9" = some "2017-04-09" := by
  refine ⟨?_, ?_, by decide, by decide⟩
  · intro c1 hne hdig h1 h9999
    have hy : 1 ≤ digitsVal c1 ∧ digitsVal c1 ≤ 9999 := ⟨h1, h9999⟩
    constructor
    · rw [parse_date]
      show (match mapIntParts ((splitDash c1).take 3 ++ [['0', '1'], ['0', '1']]) with
        | none => none
        | some ns => _) = _
      rw [splitDash_all_digits hdig]
      simp only [List.take, List.cons_append, List.nil_append, mapIntParts,
        pyIntChars_digits hne hdig]
      show (match datetimeDate (digitsVal c1) 1 1 with
        | none => none
        | some (y2, m2, d2) => some (String.mk (padZeros 4 (natChars y2) ++ '-' ::
            (padZeros 2 (natChars m2) ++ '-' :: padZeros 2 (natChars d2))))) = _
      rw [datetimeDate, if_pos (by refine ⟨h1, h9999, ?_⟩; have := daysInMonth_pos (digitsVal c1) 1; omega)]
      simp only [show padZeros 2 (natChars 1) = ['0', '1'] from rfl]
      simp
    · exact padZeros_length (natChars_length (by omega) (by omega))
  · intro c1 c2 hne1 hdig1 hne2 hdig2 h1 h9999 hm1 hm12
    constructor
    · rw [parse_date]
      show (match mapIntParts ((splitDash (c1 ++ '-' :: c2)).take 3 ++ [['0', '1'], ['0', '1']]) with
        | none => none
        | some ns => _) = _
      rw [splitDash_append_dash hdig1, splitDash_all_digits hdig2]
      simp only [List.take, List.cons_append, List.nil_append, mapIntParts,
        pyIntChars_digits hne1 hdig1, pyIntChars_digits hne2 hdig2]
      show (match datetimeDate (digitsVal c1) (digitsVal c2) 1 with
        | none => none
        | some (y2, m2, d2) => some (String.mk (padZeros 4 (natChars y2) ++ '-' ::
            (padZeros 2 (natChars m2) ++ '-' :: padZeros 2 (natChars d2))))) = _
      rw [datetimeDate, if_pos (by
        refine ⟨h1, h9999, hm1, hm12, le_refl 1, ?_⟩
        have := daysInMonth_pos (digitsVal c1) (digitsVal c2); omega)]
      simp only [show padZeros 2 (natChars 1) = ['0', '1'] from rfl]
    · exact padZeros_length (natChars_length (by omega) (by omega))

/-- C10 counterexample: `"2017-13"` has two dash-separated numeric
components, yet `parse_date` does not return a normalized string:
`datetime.date(2017, 13, 1)` raises `ValueError` and the exception escapes. -/
theorem c10_counterexample_month_13 : parse_date "2017-13" = none := by decide

theorem c10_parse_date_pads_partial_dates_witness :
    (parse_date (String.mk "2017".data) =
        some (String.mk (padZeros 4 (natChars (digitsVal "2017".data)) ++ '-' ::
          ('0' :: '1' :: '-' :: ['0', '1']))) ∧
      (padZeros 4 (natChars (digitsVal "2017".data))).length = 4) ∧
    (parse_date (String.mk ("2017".data ++ '-' :: "4".data)) =
        some (String.mk (padZeros 4 (natChars (digitsVal "2017".data)) ++ '-' ::
          (padZeros 2 (natChars (digitsVal "4".data)) ++ '-' :: ['0', '1']))) ∧
      (padZeros 2 (natChars (digitsVal "4".data))).length = 2) :=
  ⟨c10_parse_date_pads_partial_dates.1 "2017".data (by decide) (by decide)
      (by decide) (by decide),
    c10_parse_date_pads_partial_dates.2.1 "2017".data "4".data (by decide) (by decide)
      (by decide) (by decide) (by decide) (by decide) (by decide) (by decide)⟩

theorem char_toNat_inj {a b : Char} (h : a.toNat = b.toNat) : a = b := by
  cases a with
  | mk av hva =>
    cases b with
    | mk bv hvb =>
      simp only [Char.toNat] at h
      congr 1
      exact UInt32.ext h

theorem strLtB_irrefl : ∀ a, strLtB a a = false := by
  intro a
  induction a with
  | nil => rfl
  | cons c cs ih => simp [strLtB, ih]

theorem strLtB_trans :
    ∀ a b c, strLtB a b = true → strLtB b c = true → strLtB a c = true := by
  intro a
  induction a with
  | nil =>
    intro b c hab hbc
    cases b with
    | nil => simp [strLtB] at hab
    | cons y ys =>
      cases c with
      | nil => simp [strLtB] at hbc
      | cons z zs => simp [strLtB]
  | cons x xs ih =>
    intro b c hab hbc
    cases b with
    | nil => simp [strLtB] at hab
    | cons y ys =>
      cases c with
      | nil => simp [strLtB] at hbc
      | cons z zs =>
        simp only [strLtB, Bool.or_eq_true, Bool.and_eq_true, decide_eq_true_eq,
          beq_iff_eq] at hab hbc ⊢
        rcases hab with hab | ⟨hab, hab2⟩
        · rcases hbc with hbc | ⟨hbc, hbc2⟩
          · exact Or.inl (by omega)
          · subst hbc; exact Or.inl hab
        · subst hab
          rcases hbc with hbc | ⟨hbc, hbc2⟩
          · exact Or.inl hbc
          · subst hbc; exact Or.inr ⟨rfl, ih ys zs hab2 hbc2⟩

theorem strLtB_connex :
    ∀ a b, strLtB a b = false → strLtB b a = false → a = b := by
  intro a
  induction a with
  | nil =>
    intro b hab _
    cases b with
    | nil => rfl
    | cons y ys => simp [strLtB] at hab
  | cons x xs ih =>
    intro b hab hba
    cases b with
    | nil => simp [strLtB] at hba
    | cons y ys =>
      simp only [strLtB, Bool.or_eq_false_iff, Bool.and_eq_false_iff,
        decide_eq_false_iff_not, beq_eq_false_iff_ne, ne_eq] at hab hba
      have hxy : x = y := char_toNat_inj (by omega)
      subst hxy
      rcases hab.2 with h2 | h2
      · exact absurd rfl h2
      · rcases hba.2 with h3 | h3
        · exact absurd rfl h3
        · rw [ih ys h2 h3]

theorem verLtB_irrefl (v : SemVer) : verLtB v v = false := by
  obtain ⟨a, b, c⟩ := v
  simp [verLtB]

theorem verLtB_trans {a b c : SemVer} (h1 : verLtB a b = true) (h2 : verLtB b c = true) :
    verLtB a c = true := by
  obtain ⟨a1, a2, a3⟩ := a
  obtain ⟨b1, b2, b3⟩ := b
  obtain ⟨c1, c2, c3⟩ := c
  simp only [verLtB, Bool.or_eq_true, Bool.and_eq_true, decide_eq_true_eq,
    beq_iff_eq] at h1 h2 ⊢
  omega

theorem verLtB_connex {a b : SemVer} (h1 : verLtB a b = false) (h2 : verLtB b a = false) :
    a = b := by
  obtain ⟨a1, a2, a3⟩ := a
  obtain ⟨b1, b2, b3⟩ := b
  simp only [verLtB, Bool.or_eq_false_iff, Bool.and_eq_false_iff,
    decide_eq_false_iff_not, beq_eq_false_iff_ne, ne_eq, Prod.mk.injEq] at h1 h2 ⊢
  omega

theorem keyLtB_irrefl (x : String × SemVer) : keyLtB x x = false := by
  simp [keyLtB, verLtB_irrefl, strLtB_irrefl]

theorem keyLtB_trans {x y z : String × SemVer} (h1 : keyLtB x y = true)
    (h2 : keyLtB y z = true) : keyLtB x z = true := by
  simp only [keyLtB, Bool.or_eq_true, Bool.and_eq_true, beq_iff_eq] at h1 h2 ⊢
  rcases h1 with h1 | ⟨h1, h1s⟩
  · rcases h2 with h2 | ⟨h2, h2s⟩
    · exact Or.inl (verLtB_trans h1 h2)
    · rw [← h2]; exact Or.inl h1
  · rcases h2 with h2 | ⟨h2, h2s⟩
    · rw [h1]; exact Or.inl h2
    · exact Or.inr ⟨h1.trans h2, strLtB_trans _ _ _ h1s h2s⟩

theorem keyLtB_connex {x y : String × SemVer} (h1 : keyLtB x y = false)
    (h2 : keyLtB y x = false) : x = y := by
  simp only [keyLtB, Bool.or_eq_false_iff, Bool.and_eq_false_iff,
    beq_eq_false_iff_ne, ne_eq] at h1 h2
  have hv : x.2 = y.2 := verLtB_connex h1.1 h2.1
  rcases h1.2 with h | h
  · exact absurd hv h
  · rcases h2.2 with h3 | h3
    · exact absurd hv.symm h3
    · have hs : x.1 = y.1 := String.ext (strLtB_connex _ _ h h3)
      obtain ⟨xs, xv⟩ := x
      obtain ⟨ys, yv⟩ := y
      simp only at hv hs
      rw [hv, hs]

instance : IsTotal (String × SemVer) keyLe := by
  constructor
  intro a b
  rcases h : keyLtB b a with _ | _
  · exact Or.inl h
  · rcases h2 : keyLtB a b with _ | _
    · exact Or.inr h2
    · have := keyLtB_trans h h2
      rw [keyLtB_irrefl] at this
      exact absurd this (by simp)

instance : IsTrans (String × SemVer) keyLe := by
  constructor
  intro a b c hab hbc
  unfold keyLe at hab hbc ⊢
  rcases hca : keyLtB c a with _ | _
  · rfl
  · exfalso
    rcases hcb : keyLtB c b with _ | _
    · rcases hbc2 : keyLtB b c with _ | _
      · have hEq : b = c := keyLtB_connex hbc2 hcb
        subst hEq
        rw [hab] at hca
        exact absurd hca (by simp)
      · have := keyLtB_trans hbc2 hca
        rw [hab] at this
        exact absurd this (by simp)
    · rw [hbc] at hcb
      exact absurd hcb (by simp)

/-- C6: the batch coordinator sorts the collected results ascending by the
`(version, source_name)` key (sorted, and a permutation of the input), and
on the input `[("b","1.2.0"), ("a","1.2.0"), ("c","0.0.0")]` produces
`[("c","0.0.0"), ("a","1.2.0"), ("b","1.2.0")]`. -/
theorem c6_sort_by_version_then_name :
    (∀ l : List (String × SemVer),
        List.Sorted keyLe (sortResults l) ∧ (sortResults l).Perm l) ∧
    (sortResults [("b", (1, 2, 0)), ("a", (1, 2, 0)), ("c", (0, 0, 0))]).map
        (fun dv => (dv.1, fmt_ver dv.2))
      = [("c", "0.0.0"), ("a", "1.2.0"), ("b", "1.2.0")] := by
  refine ⟨fun l => ⟨List.sorted_insertionSort keyLe l, List.perm_insertionSort keyLe l⟩, ?_⟩
  decide

theorem fmt_ver_eq_sentinel {v : SemVer} : fmt_ver v = "0.0.0" ↔ v = sentinelVer := by
  constructor
  · intro h
    have h1 := parse_semver_fmt_ver v
    rw [h] at h1
    have h2 : parse_semver "0.0.0" = some sentinelVer := by decide
    rw [h2] at h1
    exact (Option.some_inj.mp h1).symm
  · intro h; subst h; rfl

theorem keyLtB_false_ver {x y : String × SemVer} (h : keyLtB x y = false) :
    verLtB x.2 y.2 = false := by
  simp only [keyLtB, Bool.or_eq_false_iff] at h
  exact h.1

theorem filter_fmt (s : List (String × SemVer)) :
    ((s.map (fun dv => (dv.1, fmt_ver dv.2))).filter (fun dv => dv.2 != "0.0.0"))
      = (s.filter (fun p => p.2 != sentinelVer)).map (fun dv => (dv.1, fmt_ver dv.2)) := by
  rw [List.filter_map]
  congr 1
  apply List.filter_congr
  intro x _
  simp only [Function.comp]
  by_cases hx : x.2 = sentinelVer
  · rw [hx]; decide
  · have h1 : (fmt_ver x.2 != "0.0.0") = true := by
      rw [bne_iff_ne]
      intro hc
      exact hx (fmt_ver_eq_sentinel.mp hc)
    have h2 : (x.2 != sentinelVer) = true := by rw [bne_iff_ne]; exact hx
    rw [h1, h2]

/-- C5: in the default (non-`--all`) mode the reported headline answer is the
formatted lowest version among the non-sentinel results (sentinel `(0,0,0)`
entries are excluded before taking the minimum), and when every collected
entry is the sentinel the answer is the string `"unknown"`. -/
theorem c5_headline_minimum : ∀ l : List (String × SemVer),
    ((∀ p ∈ l, p.2 = sentinelVer) → headline l = "unknown") ∧
    (∀ p₀ ∈ l, p₀.2 ≠ sentinelVer →
      ∃ m : SemVer, m ∈ l.map Prod.snd ∧ m ≠ sentinelVer ∧ headline l = fmt_ver m ∧
        ∀ v ∈ l.map Prod.snd, v ≠ sentinelVer → verLtB v m = false) := by
  intro l
  have hperm : (sortResults l).Perm l := List.perm_insertionSort keyLe l
  have hsort : List.Sorted keyLe (sortResults l) := List.sorted_insertionSort keyLe l
  constructor
  · intro hall
    have hnil : (sortResults l).filter (fun p => p.2 != sentinelVer) = [] := by
      rw [List.filter_eq_nil_iff]
      intro p hp
      have := hall p (hperm.mem_iff.mp hp)
      simp [this]
    rw [headline, pkgVersFmt, filter_fmt, hnil]
    rfl
  · intro p₀ hp₀ hns
    have hmem : p₀ ∈ (sortResults l).filter (fun p => p.2 != sentinelVer) := by
      rw [List.mem_filter]
      exact ⟨hperm.mem_iff.mpr hp₀, by rw [bne_iff_ne]; exact hns⟩
    rcases hfe : (sortResults l).filter (fun p => p.2 != sentinelVer) with _ | ⟨q, rest⟩
    · rw [hfe] at hmem; simp at hmem
    · refine ⟨q.2, ?_, ?_, ?_, ?_⟩
      · have hq : q ∈ sortResults l :=
          List.mem_of_mem_filter (hfe ▸ List.mem_cons_self q rest)
        exact List.mem_map_of_mem Prod.snd (hperm.mem_iff.mp hq)
      · have := List.of_mem_filter (hfe ▸ List.mem_cons_self q rest)
        rwa [bne_iff_ne] at this
      · rw [headline, pkgVersFmt, filter_fmt, hfe]
        rfl
      · intro v hv hvns
        rcases List.mem_map.mp hv with ⟨p, hpl, hpv⟩
        have hpf : p ∈ (sortResults l).filter (fun p => p.2 != sentinelVer) := by
          rw [List.mem_filter]
          refine ⟨hperm.mem_iff.mpr hpl, ?_⟩
          rw [bne_iff_ne, hpv]
          exact hvns
        rw [hfe] at hpf
        rcases List.mem_cons.mp hpf with hpq | hrest
        · subst hpq
          rw [← hpv]
          exact verLtB_irrefl _
        · have hpw : List.Pairwise keyLe
              ((sortResults l).filter (fun p => p.2 != sentinelVer)) :=
            List.Pairwise.sublist (List.filter_sublist _) hsort
          rw [hfe] at hpw
          have hqp : keyLe q p := (List.pairwise_cons.mp hpw).1 p hrest
          have hver : verLtB p.2 q.2 = false := keyLtB_false_ver hqp
          rw [← hpv]
          exact hver

theorem c5_headline_minimum_witness :
    headline exC5 = "1.2.3" ∧
    (∃ m : SemVer, m ∈ exC5.map Prod.snd ∧ m ≠ sentinelVer ∧ headline exC5 = fmt_ver m ∧
      ∀ v ∈ exC5.map Prod.snd, v ≠ sentinelVer → verLtB v m = false) :=
  ⟨by decide, (c5_headline_minimum exC5).2 ("z", (1, 2, 3)) (by decide) (by decide)⟩

theorem get_dispatch_succ (env : Env) (st : NixosCacheState) (table : List (String × Defn))
    (fuel : Nat) (distro : String) (arg : Option String) :
    get_dispatch env st table (fuel + 1) distro arg =
      match lookupDefn table distro with
      | none => some (.error (.keyError distro))
      | some defin =>
        match (match defin with
               | Defn.custom tag => some (runCustom env st tag arg)
               | Defn.alias target => get_dispatch env st table fuel target arg
               | Defn.scrape rule => get_scrape env table table.length rule arg) with
        | none => none
        | some (.ok v) => some (.ok v)
        | some (.error _) => some (.ok (0, 0, 0)) := rfl

theorem dispatch_ok_of_body {env : Env} {st : NixosCacheState} {table : List (String × Defn)}
    {fuel : Nat} {distro : String} {arg : Option String} {defin : Defn}
    {r : Except PyExc SemVer}
    (hb : (match defin with
           | Defn.custom tag => some (runCustom env st tag arg)
           | Defn.alias target => get_dispatch env st table fuel target arg
           | Defn.scrape rule => get_scrape env table table.length rule arg)
          = some r)
    (hl : lookupDefn table distro = some defin) :
    ∃ v, get_dispatch env st table (fuel + 1) distro arg = some (.ok v) := by
  cases r with
  | ok v => exact ⟨v, by rw [get_dispatch_succ, hl]; simp only [hb]⟩
  | error e => exact ⟨(0, 0, 0), by rw [get_dispatch_succ, hl]; simp only [hb]⟩

theorem dispatch_pass_of_ok {env : Env} {st : NixosCacheState} {table : List (String × Defn)}
    {fuel : Nat} {distro : String} {arg : Option String} {defin : Defn} {v : SemVer}
    (hb : (match defin with
           | Defn.custom tag => some (runCustom env st tag arg)
           | Defn.alias target => get_dispatch env st table fuel target arg
           | Defn.scrape rule => get_scrape env table table.length rule arg)
          = some (.ok v))
    (hl : lookupDefn table distro = some defin) :
    get_dispatch env st table (fuel + 1) distro arg = some (.ok v) := by
  rw [get_dispatch_succ, hl]
  simp only [hb]

theorem dispatch_sentinel_of_error {env : Env} {st : NixosCacheState}
    {table : List (String × Defn)} {fuel : Nat} {distro : String} {arg : Option String}
    {defin : Defn} {e : PyExc}
    (hb : (match defin with
           | Defn.custom tag => some (runCustom env st tag arg)
           | Defn.alias target => get_dispatch env st table fuel target arg
           | Defn.scrape rule => get_scrape env table table.length rule arg)
          = some (.error e))
    (hl : lookupDefn table distro = some defin) :
    get_dispatch env st table (fuel + 1) distro arg = some (.ok (0, 0, 0)) := by
  rw [get_dispatch_succ, hl]
  simp only [hb]

/-- C2 (amended): in `get_scrape`, after the pre-regex stages succeed, the
result is `scrapeFinish (scrapeVersionOf ...)` applied to the regex search:
a non-match falls back to the string `"0.0.0"` (so the scrape returns the
sentinel `(0,0,0)` rather than failing), a match takes the named `version`
group, and an empty (or non-participating) group also falls back to
`"0.0.0"`. -/
theorem c2_scrape_regex_fallback :
    (∀ (env : Env) (table : List (String × Defn)) (wfuel : Nat) (rule : Rule)
       (arg : Option String) (d : Rule) (u x p fu fx page text : String),
       resolveInherit table wfuel rule = some (.ok d) →
       d.url = some u → d.xpath = some x → d.regex = some p →
       pyFormat u (scrapeArgs arg) = .ok fu →
       pyFormat x (scrapeArgs arg) = .ok fx →
       env.fetch fu = .ok page →
       env.xpathFirst page fx = .ok text →
       get_scrape env table wfuel rule arg =
         some (scrapeFinish (scrapeVersionOf (env.search p text)))) ∧
    scrapeVersionOf none = "0.0.0" ∧
    scrapeVersionOf (some none) = "0.0.0" ∧
    scrapeVersionOf (some (some "")) = "0.0.0" ∧
    (∀ gs : String, gs ≠ "" → scrapeVersionOf (some (some gs)) = gs) ∧
    scrapeFinish "0.0.0" = .ok (0, 0, 0) := by
  refine ⟨?_, rfl, rfl, rfl, fun gs hgs => by simp [scrapeVersionOf, hgs], rfl⟩
  · intro env table wfuel rule arg d u x p fu fx page text hres hu hx hp hfu hfx hfetch hxp
    rw [get_scrape, hres]
    simp only [hu, hx, hp, hfu, hfx]
    show some (Except.bind (Except.ok fu) _) = _
    rw [Except.bind]
    show some (Except.bind (Except.ok fx) _) = _
    rw [Except.bind]
    show some (Except.bind (Except.ok p) _) = _
    rw [Except.bind]
    show some (Except.bind (env.fetch fu) _) = _
    rw [hfetch, Except.bind]
    show some (Except.bind (env.xpathFirst page fx) _) = _
    rw [hxp, Except.bind]

/-- C2 counterexample: with a fetch and an XPath extraction that succeed but
a version regex that does not match, `get_scrape` returns the sentinel
`some (.ok (0,0,0))` — it does not fail with an exception as the claim
states. -/
theorem c2_counterexample_nonmatch_returns_sentinel :
    get_scrape envNoMatch DISTROS DISTROS.length archRule (some "(rolling)") =
      some (.ok (0, 0, 0)) := rfl

theorem c2_scrape_regex_fallback_witness :
    get_scrape envNoMatch DISTROS DISTROS.length archRule (some ROLLING) =
      some (scrapeFinish (scrapeVersionOf
        (envNoMatch.search "rust \\d+:(?P<version>\\d+[.]\\d+[.]\\d+)"
          "some heading without a version"))) :=
  c2_scrape_regex_fallback.1 envNoMatch DISTROS DISTROS.length archRule (some ROLLING)
    archRule "https://www.archlinux.org/packages/community/x86_64/rust/" "//h2/text()"
    "rust \\d+:(?P<version>\\d+[.]\\d+[.]\\d+)"
    "https://www.archlinux.org/packages/community/x86_64/rust/" "//h2/text()"
    "<html><h2>some heading</h2></html>" "some heading without a version"
    rfl rfl rfl rfl rfl rfl rfl rfl

/-- C4 counterexample: on a two-entry table whose inherit links form a
cycle, the walk is still running after table-size merge steps (`none` = the
uncapped source loop has not terminated), so it is not capped at the table
size and does not terminate for every rule. -/
theorem c4_counterexample_cycle_not_capped :
    resolveInherit cycTable cycTable.length cycARule = none ∧ cycTable.length = 2 :=
  ⟨rfl, rfl⟩

/-- C4 (amended): the inherits walk merges child fields over the parent's
and is uncapped — it terminates exactly when a rule with no inherit link is
reached, so a cyclic chain loops forever.  For the shipped `DISTROS` table
every chain is acyclic: each scrape rule resolves (within table-size merge
steps) to a rule with no inherit link, and `ubuntu` resolves to its own
`url` with `debian`'s `xpath` and regex. -/
theorem c4_inherit_walk_on_table :
    (∀ name rule, (name, Defn.scrape rule) ∈ DISTROS →
       ∃ m : Rule, resolveInherit DISTROS DISTROS.length rule = some (.ok m) ∧
         m.inherit = none) ∧
    resolveInherit DISTROS DISTROS.length ubuntuRule =
      some (.ok { url := ubuntuRule.url, xpath := debianRule.xpath,
                  regex := debianRule.regex, inherit := none }) := by
  constructor
  · intro name rule h
    have hd : Defn.scrape rule ∈ DISTROS.map Prod.snd := List.mem_map_of_mem Prod.snd h
    simp [DISTROS] at hd
    rcases hd with rfl | rfl | rfl | rfl
    · exact ⟨_, rfl, rfl⟩
    · exact ⟨_, rfl, rfl⟩
    · exact ⟨_, rfl, rfl⟩
    · exact ⟨_, rfl, rfl⟩
  · rfl

theorem c4_inherit_walk_on_table_witness :
    ∃ m : Rule, resolveInherit DISTROS DISTROS.length ubuntuRule = some (.ok m) ∧
      m.inherit = none :=
  c4_inherit_walk_on_table.1 "ubuntu" ubuntuRule (by decide)

/-- C9: the compressed-index resolver accepts only the rolling sentinel —
with `(rolling)` its precondition assertion passes and the fetch is
performed; with any other argument (including a missing one) it raises
`AssertionError` before any fetch, leaving the cache untouched. -/
theorem c9_nixos_rolling_only : ∀ (env : Env) (st : NixosCacheState) (arg : Option String),
    (arg ≠ some ROLLING →
      get_nixos env st arg =
        { result := .error (.assertionError "NixOS is a rolling-only release"),
          fetched := false, readBody := false, finalState := st }) ∧
    (arg = some ROLLING → (get_nixos env st arg).fetched = true) := by
  intro env st arg
  constructor
  · intro h
    rw [get_nixos, if_pos h]
  · intro h
    subst h
    rw [get_nixos, if_neg (by simp)]
    rcases henv : env.nixosFetch with e | req
    · simp only [henv]
    · simp only [henv]
      rcases hc : (if req.etag = st.etagFile.map pyStrip then st.bodyFile else none) with _ | bs
      · simp only [hc]
        rcases hre : req.etag with _ | t
        · simp only [hre]
        · simp only [hre]
      · simp only [hc]

theorem c9_nixos_rolling_only_witness :
    get_nixos envOk st0 (some "16.04") =
      { result := .error (.assertionError "NixOS is a rolling-only release"),
        fetched := false, readBody := false, finalState := st0 } ∧
    (get_nixos envOk st0 (some ROLLING)).fetched = true :=
  ⟨(c9_nixos_rolling_only envOk st0 (some "16.04")).1 (by decide),
   (c9_nixos_rolling_only envOk st0 (some ROLLING)).2 rfl⟩

/-- C7 (amended): with the rolling argument and a remote that reports a
freshness token `t` and body `B`: when the stored token (stripped) equals
`t` *and* the cached payload file is readable, the result is parsed from the
cached payload, the body is not downloaded, and the cache is unchanged; when
the tokens differ, no token is stored, or the cached payload cannot be read,
the full body is downloaded and both the token and the raw payload are
persisted, overwriting the cache. -/
theorem c7_nixos_conditional_fetch :
    ∀ (env : Env) (st : NixosCacheState) (t : String) (B cb : List Nat),
    env.nixosFetch = .ok { etag := some t, body := B } →
    ((st.etagFile.map pyStrip = some t → st.bodyFile = some cb →
        get_nixos env st (some ROLLING) =
          { result := nixosParse env cb, fetched := true, readBody := false,
            finalState := st }) ∧
     ((st.etagFile.map pyStrip ≠ some t ∨ st.bodyFile = none) →
        get_nixos env st (some ROLLING) =
          { result := nixosParse env B, fetched := true, readBody := true,
            finalState := { etagFile := some t, bodyFile := some B } })) := by
  intro env st t B cb henv
  constructor
  · intro he hb
    rw [get_nixos, if_neg (by simp)]
    simp only [henv, he, hb]
    simp
  · intro hor
    rw [get_nixos, if_neg (by simp)]
    simp only [henv]
    have hnone : (if (some t : Option String) = st.etagFile.map pyStrip
        then st.bodyFile else none) = none := by
      rcases hor with h | h
      · rw [if_neg (fun hc => h hc.symm)]
      · rw [h]
        split <;> rfl
    rw [hnone]

theorem c7_nixos_conditional_fetch_witness :
    get_nixos envOk stWarm (some ROLLING) =
      { result := nixosParse envOk [1, 2], fetched := true, readBody := false,
        finalState := stWarm } ∧
    get_nixos envOk stStale (some ROLLING) =
      { result := nixosParse envOk [31, 139], fetched := true, readBody := true,
        finalState := { etagFile := some "abc", bodyFile := some [31, 139] } } :=
  ⟨(c7_nixos_conditional_fetch envOk stWarm "abc" [31, 139] [1, 2] rfl).1 rfl rfl,
   (c7_nixos_conditional_fetch envOk stStale "abc" [31, 139] [9] rfl).2 (Or.inl (by decide))⟩

/-- C7 counterexample: the stored freshness token equals the one the remote
reports, yet the body *is* downloaded a second time, because the cached
payload file is unreadable — the claim's two cases (equal tokens: use the
cache; different or missing token: download) do not cover the code's
behaviour. -/
theorem c7_counterexample_torn_cache :
    stTorn.etagFile.map pyStrip = some "abc" ∧
    envOk.nixosFetch = .ok { etag := some "abc", body := [31, 139] } ∧
    (get_nixos envOk stTorn (some ROLLING)).readBody = true :=
  ⟨rfl, rfl, rfl⟩

theorem dispatch_ok_arch (env : Env) (st : NixosCacheState) (k : Nat) (arg : Option String) :
    ∃ v, get_dispatch env st DISTROS (k + 1) "arch" arg = some (.ok v) := by
  obtain ⟨r, hb⟩ : ∃ r, get_scrape env DISTROS DISTROS.length archRule arg = some r := ⟨_, rfl⟩
  exact dispatch_ok_of_body hb rfl

theorem dispatch_ok_debian (env : Env) (st : NixosCacheState) (k : Nat) (arg : Option String) :
    ∃ v, get_dispatch env st DISTROS (k + 1) "debian" arg = some (.ok v) := by
  obtain ⟨r, hb⟩ : ∃ r, get_scrape env DISTROS DISTROS.length debianRule arg = some r := ⟨_, rfl⟩
  exact dispatch_ok_of_body hb rfl

theorem dispatch_ok_opensuse (env : Env) (st : NixosCacheState) (k : Nat) (arg : Option String) :
    ∃ v, get_dispatch env st DISTROS (k + 1) "opensuse" arg = some (.ok v) := by
  obtain ⟨r, hb⟩ : ∃ r, get_scrape env DISTROS DISTROS.length opensuseRule arg = some r :=
    ⟨_, rfl⟩
  exact dispatch_ok_of_body hb rfl

theorem dispatch_ok_ubuntu (env : Env) (st : NixosCacheState) (k : Nat) (arg : Option String) :
    ∃ v, get_dispatch env st DISTROS (k + 1) "ubuntu" arg = some (.ok v) := by
  obtain ⟨r, hb⟩ : ∃ r, get_scrape env DISTROS DISTROS.length ubuntuRule arg = some r := ⟨_, rfl⟩
  exact dispatch_ok_of_body hb rfl

theorem dispatch_ok_fedora (env : Env) (st : NixosCacheState) (k : Nat) (arg : Option String) :
    ∃ v, get_dispatch env st DISTROS (k + 1) "fedora" arg = some (.ok v) :=
  dispatch_ok_of_body rfl rfl

theorem dispatch_ok_freebsd (env : Env) (st : NixosCacheState) (k : Nat) (arg : Option String) :
    ∃ v, get_dispatch env st DISTROS (k + 1) "freebsd" arg = some (.ok v) :=
  dispatch_ok_of_body rfl rfl

theorem dispatch_ok_nixos (env : Env) (st : NixosCacheState) (k : Nat) (arg : Option String) :
    ∃ v, get_dispatch env st DISTROS (k + 1) "nixos" arg = some (.ok v) :=
  dispatch_ok_of_body rfl rfl

theorem dispatch_ok_openbsd (env : Env) (st : NixosCacheState) (k : Nat) (arg : Option String) :
    ∃ v, get_dispatch env st DISTROS (k + 1) "openbsd" arg = some (.ok v) :=
  dispatch_ok_of_body rfl rfl

theorem allfail_arch (st : NixosCacheState) (k : Nat) (arg : Option String) :
    get_dispatch envAllFail st DISTROS (k + 1) "arch" arg = some (.ok (0, 0, 0)) := by
  cases arg with
  | none => rfl
  | some s => rfl

theorem allfail_debian (st : NixosCacheState) (k : Nat) (arg : Option String) :
    get_dispatch envAllFail st DISTROS (k + 1) "debian" arg = some (.ok (0, 0, 0)) := by
  cases arg with
  | none => rfl
  | some s => rfl

set_option maxRecDepth 4000 in
theorem allfail_opensuse (st : NixosCacheState) (k : Nat) (arg : Option String) :
    get_dispatch envAllFail st DISTROS (k + 1) "opensuse" arg = some (.ok (0, 0, 0)) := by
  cases arg with
  | none => rfl
  | some s => rfl

theorem allfail_ubuntu (st : NixosCacheState) (k : Nat) (arg : Option String) :
    get_dispatch envAllFail st DISTROS (k + 1) "ubuntu" arg = some (.ok (0, 0, 0)) := by
  cases arg with
  | none => rfl
  | some s => rfl

theorem allfail_fedora (st : NixosCacheState) (k : Nat) (arg : Option String) :
    get_dispatch envAllFail st DISTROS (k + 1) "fedora" arg = some (.ok (0, 0, 0)) := rfl

theorem allfail_freebsd (st : NixosCacheState) (k : Nat) (arg : Option String) :
    get_dispatch envAllFail st DISTROS (k + 1) "freebsd" arg = some (.ok (0, 0, 0)) := by
  cases arg with
  | none => rfl
  | some s => rfl

theorem allfail_openbsd (st : NixosCacheState) (k : Nat) (arg : Option String) :
    get_dispatch envAllFail st DISTROS (k + 1) "openbsd" arg = some (.ok (0, 0, 0)) := by
  cases arg with
  | none => rfl
  | some s => rfl

theorem allfail_nixos (st : NixosCacheState) (k : Nat) (arg : Option String) :
    get_dispatch envAllFail st DISTROS (k + 1) "nixos" arg = some (.ok (0, 0, 0)) := by
  by_cases h : arg = some ROLLING
  · subst h; rfl
  · have he : (get_nixos envAllFail st arg).result =
        .error (.assertionError "NixOS is a rolling-only release") := by
      rw [get_nixos, if_pos h]
    exact dispatch_sentinel_of_error (congrArg some he) rfl

theorem allfail_debian_testing (st : NixosCacheState) (k : Nat) (arg : Option String) :
    get_dispatch envAllFail st DISTROS (k + 1) "debian-testing" arg = some (.ok (0, 0, 0)) := by
  cases k with
  | zero => rfl
  | succ k => exact dispatch_pass_of_ok (allfail_debian st k arg) rfl

theorem allfail_debian_unstable (st : NixosCacheState) (k : Nat) (arg : Option String) :
    get_dispatch envAllFail st DISTROS (k + 1) "debian-unstable" arg = some (.ok (0, 0, 0)) := by
  cases k with
  | zero => rfl
  | succ k => exact dispatch_pass_of_ok (allfail_debian st k arg) rfl

theorem allfail_fedora_latest (st : NixosCacheState) (k : Nat) (arg : Option String) :
    get_dispatch envAllFail st DISTROS (k + 1) "fedora-latest" arg = some (.ok (0, 0, 0)) := by
  cases k with
  | zero => rfl
  | succ k => exact dispatch_pass_of_ok (allfail_fedora st k arg) rfl

theorem allfail_freebsd_latest (st : NixosCacheState) (k : Nat) (arg : Option String) :
    get_dispatch envAllFail st DISTROS (k + 1) "freebsd-latest" arg = some (.ok (0, 0, 0)) := by
  cases k with
  | zero => rfl
  | succ k => exact dispatch_pass_of_ok (allfail_freebsd st k arg) rfl

theorem allfail_openbsd_latest (st : NixosCacheState) (k : Nat) (arg : Option String) :
    get_dispatch envAllFail st DISTROS (k + 1) "openbsd-latest" arg = some (.ok (0, 0, 0)) := by
  cases k with
  | zero => rfl
  | succ k => exact dispatch_pass_of_ok (allfail_openbsd st k arg) rfl

theorem allfail_ubuntu_latest (st : NixosCacheState) (k : Nat) (arg : Option String) :
    get_dispatch envAllFail st DISTROS (k + 1) "ubuntu-latest" arg = some (.ok (0, 0, 0)) := by
  cases k with
  | zero => rfl
  | succ k => exact dispatch_pass_of_ok (allfail_ubuntu st k arg) rfl

/-- C1 (amended): for every source name *present in the table* and any
release argument and recursion budget, `get_dispatch` never propagates an
exception — its result is always an `.ok` value for any environment — and
when every network operation fails the result is exactly the sentinel
`(0,0,0)`.  (For a source name absent from the table, the lookup
`DISTROS[distro]` happens before the `try:` boundary and its `KeyError`
propagates: see the counterexample.) -/
theorem c1_dispatch_failure_boundary :
    (∀ (env : Env) (st : NixosCacheState) (fuel : Nat) (distro : String) (arg : Option String),
      distro ∈ DISTROS.map Prod.fst →
      ∃ v, get_dispatch env st DISTROS (fuel + 1) distro arg = some (.ok v)) ∧
    (∀ (st : NixosCacheState) (fuel : Nat) (distro : String) (arg : Option String),
      distro ∈ DISTROS.map Prod.fst →
      get_dispatch envAllFail st DISTROS (fuel + 1) distro arg = some (.ok (0, 0, 0))) := by
  constructor
  · intro env st fuel distro arg hd
    simp only [DISTROS, List.map_cons, List.map_nil, List.mem_cons,
      List.not_mem_nil, or_false] at hd
    rcases hd with rfl | rfl | rfl | rfl | rfl | rfl | rfl | rfl | rfl | rfl | rfl | rfl | rfl | rfl
    · exact dispatch_ok_arch env st fuel arg
    · exact dispatch_ok_debian env st fuel arg
    · cases fuel with
      | zero => exact dispatch_ok_of_body rfl rfl
      | succ k =>
        obtain ⟨v, hv⟩ := dispatch_ok_debian env st k arg
        exact ⟨v, dispatch_pass_of_ok hv rfl⟩
    · cases fuel with
      | zero => exact dispatch_ok_of_body rfl rfl
      | succ k =>
        obtain ⟨v, hv⟩ := dispatch_ok_debian env st k arg
        exact ⟨v, dispatch_pass_of_ok hv rfl⟩
    · exact dispatch_ok_fedora env st fuel arg
    · cases fuel with
      | zero => exact dispatch_ok_of_body rfl rfl
      | succ k =>
        obtain ⟨v, hv⟩ := dispatch_ok_fedora env st k arg
        exact ⟨v, dispatch_pass_of_ok hv rfl⟩
    · exact dispatch_ok_freebsd env st fuel arg
    · cases fuel with
      | zero => exact dispatch_ok_of_body rfl rfl
      | succ k =>
        obtain ⟨v, hv⟩ := dispatch_ok_freebsd env st k arg
        exact ⟨v, dispatch_pass_of_ok hv rfl⟩
    · exact dispatch_ok_nixos env st fuel arg
    · exact dispatch_ok_openbsd env st fuel arg
    · cases fuel with
      | zero => exact dispatch_ok_of_body rfl rfl
      | succ k =>
        obtain ⟨v, hv⟩ := dispatch_ok_openbsd env st k arg
        exact ⟨v, dispatch_pass_of_ok hv rfl⟩
    · exact dispatch_ok_opensuse env st fuel arg
    · exact dispatch_ok_ubuntu env st fuel arg
    · cases fuel with
      | zero => exact dispatch_ok_of_body rfl rfl
      | succ k =>
        obtain ⟨v, hv⟩ := dispatch_ok_ubuntu env st k arg
        exact ⟨v, dispatch_pass_of_ok hv rfl⟩
  · intro st fuel distro arg hd
    simp only [DISTROS, List.map_cons, List.map_nil, List.mem_cons,
      List.not_mem_nil, or_false] at hd
    rcases hd with rfl | rfl | rfl | rfl | rfl | rfl | rfl | rfl | rfl | rfl | rfl | rfl | rfl | rfl
    · exact allfail_arch st fuel arg
    · exact allfail_debian st fuel arg
    · exact allfail_debian_testing st fuel arg
    · exact allfail_debian_unstable st fuel arg
    · exact allfail_fedora st fuel arg
    · exact allfail_fedora_latest st fuel arg
    · exact allfail_freebsd st fuel arg
    · exact allfail_freebsd_latest st fuel arg
    · exact allfail_nixos st fuel arg
    · exact allfail_openbsd st fuel arg
    · exact allfail_openbsd_latest st fuel arg
    · exact allfail_opensuse st fuel arg
    · exact allfail_ubuntu st fuel arg
    · exact allfail_ubuntu_latest st fuel arg

theorem c1_dispatch_failure_boundary_witness :
    (∃ v, get_dispatch envOk st0 DISTROS 1 "debian" (some "jessie") = some (.ok v)) ∧
    get_dispatch envAllFail st0 DISTROS 1 "fedora" (some "24") = some (.ok (0, 0, 0)) :=
  ⟨c1_dispatch_failure_boundary.1 envOk st0 0 "debian" (some "jessie") (by decide),
   c1_dispatch_failure_boundary.2 st0 0 "fedora" (some "24") (by decide)⟩

/-- C1 counterexample: for a source name that is not in the table, the
lookup `DISTROS[distro]` is evaluated before the `try:` failure boundary,
so `get_dispatch` propagates its `KeyError` instead of returning the
sentinel — the claim's "for every source name" fails. -/
theorem c1_counterexample_unknown_source :
    get_dispatch envAllFail st0 DISTROS 1 "centos" none =
      some (.error (.keyError "centos")) := rfl

/-- C3 (amended): a precondition violation — invoking the rolling-only
resolver with a non-rolling argument — is caught by `get_dispatch`'s bare
`except:` like every other exception and converted to the sentinel
`(0,0,0)`; it does *not* propagate out of the dispatch layer. -/
theorem c3_precondition_violation_caught :
    ∀ (env : Env) (st : NixosCacheState) (fuel : Nat) (arg : Option String),
      arg ≠ some ROLLING →
      get_dispatch env st DISTROS (fuel + 1) "nixos" arg = some (.ok (0, 0, 0)) := by
  intro env st fuel arg h
  have he : (get_nixos env st arg).result =
      .error (.assertionError "NixOS is a rolling-only release") := by
    rw [get_nixos, if_pos h]
  exact dispatch_sentinel_of_error (congrArg some he) rfl

theorem c3_precondition_violation_caught_witness :
    get_dispatch envOk st0 DISTROS 1 "nixos" (some "16.04") = some (.ok (0, 0, 0)) :=
  c3_precondition_violation_caught envOk st0 0 (some "16.04") (by decide)

/-- C3 counterexample: with an environment in which the NixOS fetch would
succeed (dispatching `nixos` with the rolling argument yields `(1,16,0)`),
dispatching `nixos` with the non-rolling argument `"16.04"` returns
`some (.ok (0,0,0))` — the `AssertionError` is converted to the sentinel
result, not propagated, so it does not abort the run. -/
theorem c3_counterexample_not_propagated :
    get_dispatch envOk st0 DISTROS 1 "nixos" (some "16.04") = some (.ok (0, 0, 0)) ∧
    get_dispatch envOk st0 DISTROS 1 "nixos" (some ROLLING) = some (.ok (1, 16, 0)) :=
  ⟨rfl, rfl⟩
